import Mathlib

/-!
# Verification of the delivery encoder (`src/main.rs`)

A shallow embedding of the processing core of the delivery encoder:
the duration probe, the segment planner, the segment worker's reporting
logic, and the merge coordinator, together with proofs of the spec's
claims about them.

Modelling conventions:
* Directory listings are given as pure data (`List Entry`); a failed
  `read_dir` is `none`.
* File moves (`fs::rename`) are modelled as succeeding; the set of names
  present in the output directory is a `Finset String` (a rename that
  overwrites an existing destination leaves one copy, which union gives).
* `f64` values are modelled exactly in `ℚ` (rounding of decimal literals to
  binary floating point is ignored; only parse success, sign and exact
  decimal value are used by the claims).
* Real time (log rate limiting) and thread scheduling are not modelled;
  the arrival order of worker reports is an explicit input list.
-/

namespace DeliveryEncoder

/-! ## Characters and digit strings -/

/-- Numeric value of a digit string, most significant first
(`foldl` of `acc * 10 + digit`). -/
def digitsVal (cs : List Char) : Nat :=
  cs.foldl (fun a c => a * 10 + (c.toNat - 48)) 0

/-- Rust `u32::from_str` on a character list: an optional leading `'+'`,
then one or more ASCII digits, and the value must fit in `u32`
(otherwise `from_str` fails with an overflow error). A leading `'-'` is
rejected for an unsigned type. -/
def parseU32Chars (cs : List Char) : Option Nat :=
  let ds := if cs.head? == some '+' then cs.tail else cs
  if ds.isEmpty then none
  else if ds.all Char.isDigit then
    if digitsVal ds < 4294967296 then some (digitsVal ds) else none
  else none

/-- The sort key of a frame file name, from `main.rs` lines 313–324:
`file_name.split('.').next()` (the part before the first dot) parsed with
`parse::<u32>()`; `none` when the stem does not parse. -/
def sortKey (name : String) : Option Nat :=
  parseU32Chars (name.data.takeWhile (fun c => c != '.'))

/-- Rust `Path::extension`: the part of the file name after the last dot,
except that a name with no dot has no extension and a name whose only dot
is its first character (a dotfile such as `".png"`) has no extension. -/
def extension (name : String) : Option String :=
  let cs := name.data
  if cs.count '.' == 0 then none
  else if cs.head? == some '.' && cs.count '.' == 1 then none
  else some ⟨(cs.reverse.takeWhile (fun c => c != '.')).reverse⟩

/-! ## Directory entries and the frame filter -/

/-- One entry of a segment directory listing: its file name and whether it
is a regular file (`p.is_file()`). -/
structure Entry where
  name : String
  isFile : Bool
deriving DecidableEq

/-- The merge coordinator's filter (`main.rs` line 304):
keep entries that are files whose extension is `png`. -/
def isPngFrame (e : Entry) : Bool :=
  e.isFile && (extension e.name == some "png")

/-! ## The frame comparator and sort -/

/-- Rust's `Ord` for `Option<u32>`: `None` is less than every `Some`,
and `Some`s compare by value. -/
def keyCmp : Option Nat → Option Nat → Ordering
  | none, none => .eq
  | none, some _ => .lt
  | some _, none => .gt
  | some a, some b => compare a b

/-- The comparator passed to `frames.sort_by` (`main.rs` lines 313–324):
compare the parsed filename stems as `Option<u32>`. -/
def frameCmp (a b : Entry) : Ordering :=
  keyCmp (sortKey a.name) (sortKey b.name)

/-- `a` may precede `b` under the comparator (`frameCmp a b ≠ Greater`).
A stable sort with this relation is exactly Rust's stable `sort_by`. -/
def frameLe (a b : Entry) : Bool :=
  !(frameCmp a b == .gt)

/-- The coordinator's frame sort: a stable merge sort under `frameLe`. -/
def sortFrames (l : List Entry) : List Entry :=
  l.mergeSort frameLe

/-! ## Global frame names -/

/-- The decimal digit character for `n < 10`. -/
def digitChar (n : Nat) : Char :=
  match n with
  | 0 => '0' | 1 => '1' | 2 => '2' | 3 => '3' | 4 => '4'
  | 5 => '5' | 6 => '6' | 7 => '7' | 8 => '8' | _ => '9'

/-- The decimal digits of `n`, most significant first, by structural
recursion on a fuel bound (sufficient whenever `n < 10 ^ fuel`). -/
def natDigitsAux (fuel : Nat) (n : Nat) : List Char :=
  match fuel with
  | 0 => []
  | fuel + 1 =>
    if n < 10 then [digitChar n]
    else natDigitsAux fuel (n / 10) ++ [digitChar (n % 10)]

/-- The decimal digits of `n`, most significant first
(`n` has at most `n + 1` decimal digits, so the fuel suffices). -/
def natDigits (n : Nat) : List Char :=
  natDigitsAux (n + 1) n

/-- `format!("{:05}", n)`: the decimal digits of `n`, left-padded with
zeros to at least five characters. -/
def pad5 (n : Nat) : String :=
  ⟨List.replicate (5 - (natDigits n).length) '0' ++ natDigits n⟩

/-- The destination name of the global frame numbered `n`
(`format!("video{:05}.png", n)`, `main.rs` line 329). -/
def globalName (n : Nat) : String :=
  "video" ++ pad5 n ++ ".png"

/-! ## The merge coordinator -/

/-- Merge one segment directory (`main.rs` lines 291–337): a failed
`read_dir` (`none`) is logged and skipped; otherwise filter the listing to
PNG files, sort, and move each frame to `globalName` of the running
counter, which increments per frame. Returns the moves
`(source entry, destination name)` in order, and the new counter. -/
def mergeSegment (counter : Nat) (listing : Option (List Entry)) :
    List (Entry × String) × Nat :=
  match listing with
  | none => ([], counter)
  | some l =>
    let frames := sortFrames (l.filter isPngFrame)
    (frames.enum.map (fun p => (p.2, globalName (counter + p.1))),
     counter + frames.length)

/-- Merge all segment directories in index order, threading the global
frame counter. -/
def mergeAll (counter : Nat) : List (Option (List Entry)) →
    List (Entry × String) × Nat
  | [] => ([], counter)
  | l :: rest =>
    let s := mergeSegment counter l
    let r := mergeAll s.2 rest
    (s.1 ++ r.1, r.2)

/-- `success_count`: how many received reports carry `success = true`
(`main.rs` lines 263–272). -/
def successCount (reports : List (Nat × Bool)) : Nat :=
  reports.countP (fun r => r.2)

/-- The observable outcome of the coordination phase. -/
structure RunResult where
  exitCode : Nat
  mergeRan : Bool
  moves : List (Entry × String)
  output : Finset String
  tmpRemoved : Bool
deriving DecidableEq

/-- The coordination phase of `main` (`main.rs` lines 262–349): drain all
worker reports; if fewer than `numThreads` succeeded, exit with status 1
before any merge work; otherwise merge every segment with the global
counter starting at 1, so the final output directory holds its initial
contents plus the destination names, and remove the temporary segments
directory. -/
def coordinate (numThreads : Nat) (reports : List (Nat × Bool))
    (listings : List (Option (List Entry))) (out0 : Finset String) :
    RunResult :=
  if successCount reports ≠ numThreads then
    ⟨1, false, [], out0, false⟩
  else
    let ms := (mergeAll 1 listings).1
    ⟨0, true, ms, out0 ∪ (ms.map Prod.snd).toFinset, true⟩

/-! ## The segment planner -/

/-- One planned segment: its index, start offset and length in seconds. -/
structure Segment where
  index : Nat
  start : ℚ
  len : ℚ
deriving DecidableEq

/-- The segment plan (`main.rs` lines 157 and 175):
`segment_duration = total_duration / num_threads` and thread `i` starts at
`i * segment_duration`, for `i = 0 .. n-1`. -/
def plan (d : ℚ) (n : Nat) : List Segment :=
  (List.range n).map (fun i => ⟨i, (i : ℚ) * (d / (n : ℚ)), d / (n : ℚ)⟩)

/-! ## The duration probe -/

/-- A value of Rust's `f64` as produced by `str::parse::<f64>`, with
finite values kept exact in `ℚ`. -/
inductive RustFloat where
  | finite (v : ℚ)
  | infinite (neg : Bool)
  | nan
deriving DecidableEq

/-- Whitespace for `str::trim` (the ASCII part of Unicode `White_Space`;
the probe tool terminates its output with a newline). -/
def isWs (c : Char) : Bool :=
  c == ' ' || c == '\n' || c == '\t' || c == '\r' || c == '\x0b' || c == '\x0c'

/-- Rust `str::trim`: drop whitespace from both ends. -/
def rustTrim (s : String) : String :=
  ⟨((s.data.dropWhile isWs).reverse.dropWhile isWs).reverse⟩

/-- Split off an optional leading sign; `true` means negative. -/
def splitSign : List Char → Bool × List Char
  | '+' :: r => (false, r)
  | '-' :: r => (true, r)
  | r => (false, r)

/-- The mantissa of a decimal number per Rust's `f64` grammar:
`Digit+ | Digit+ '.' Digit* | Digit* '.' Digit+`. Returns its exact
value. -/
def parseMantissa (cs : List Char) : Option ℚ :=
  let ip := cs.takeWhile Char.isDigit
  match cs.drop ip.length with
  | [] => if ip.isEmpty then none else some (digitsVal ip : ℚ)
  | '.' :: fr =>
    if fr.all Char.isDigit && !(ip.isEmpty && fr.isEmpty) then
      some ((digitsVal ip : ℚ) + (digitsVal fr : ℚ) / (10 : ℚ) ^ fr.length)
    else none
  | _ => none

/-- The exponent part after `e`/`E`: an optional sign then one or more
digits. -/
def parseExp (cs : List Char) : Option ℤ :=
  let s := splitSign cs
  if s.2.isEmpty || !s.2.all Char.isDigit then none
  else some (if s.1 then -(digitsVal s.2 : ℤ) else (digitsVal s.2 : ℤ))

/-- Rust `str::parse::<f64>` (`FromStr` grammar): an optional sign, then
`inf`/`infinity`/`nan` (case-insensitive) or a decimal number with an
optional `e`/`E` exponent. Finite values are kept exact. -/
def parseF64 (s : String) : Option RustFloat :=
  let sg := splitSign s.data
  let lower := sg.2.map Char.toLower
  if lower == "inf".data || lower == "infinity".data then
    some (.infinite sg.1)
  else if lower == "nan".data then some .nan
  else
    let mant := sg.2.takeWhile (fun c => c != 'e' && c != 'E')
    let expPart := sg.2.drop mant.length
    match parseMantissa mant with
    | none => none
    | some m =>
      let signed : ℚ := if sg.1 then -m else m
      match expPart with
      | [] => some (.finite signed)
      | _ :: es =>
        match parseExp es with
        | none => none
        | some e => some (.finite (signed * (10 : ℚ) ^ e))

/-- What the spawned probe process produced: whether `status.success()`
held, and its standard output. -/
structure ProcOut where
  exitZero : Bool
  stdout : String
deriving DecidableEq

/-- The duration probe (`main.rs` lines 125–148): `none` models
`process::exit(1)`. The probe fails when the tool cannot be spawned
(input `none`) or exits unsuccessfully; otherwise its trimmed standard
output is parsed as `f64`, and a parse failure is fatal. -/
def probeDuration (spawned : Option ProcOut) : Option RustFloat :=
  match spawned with
  | none => none
  | some p =>
    if p.exitZero then parseF64 (rustTrim p.stdout) else none

/-! ## The segment worker -/

/-- The events one worker's run can observe (`main.rs` lines 174–254):
whether its segment directory was created, whether `ffmpeg` spawned, the
sequence of reads from the child's diagnostic stream (`some line` models
`Ok(line)`, `none` an IO error from `BufReader::lines`), whether
`cmd.wait()` succeeded, and whether the resulting exit status was a
success. -/
structure WorkerEnv where
  createDirOk : Bool
  spawnOk : Bool
  lineReads : List (Option String)
  waitOk : Bool
  exitSuccess : Bool
deriving DecidableEq

/-- Whether the drain loop over the diagnostic stream hit a read error
(on which it logs a warning and `break`s, `main.rs` lines 230–233). -/
def drainHitError : List (Option String) → Bool
  | [] => false
  | some _ :: rest => drainHitError rest
  | none :: _ => true

/-- The `success` flag a worker sends on the channel (`main.rs` lines
179–253): `false` when the segment directory cannot be created, when the
spawn fails, or when `wait` fails; otherwise `status.success()`. The
drain loop's outcome is not consulted. -/
def workerReport (env : WorkerEnv) : Bool :=
  if !env.createDirOk then false
  else if !env.spawnOk then false
  else if !env.waitOk then false
  else env.exitSuccess

/-! ## Startup cleaning of the temporary segments directory -/

/-- The filesystem events the startup phase can observe (`main.rs` lines
99–113): whether `tmp_segments` already exists, and whether the
`remove_dir_all` and `create_dir` calls succeed. -/
structure StartupEnv where
  tmpExists : Bool
  removeOk : Bool
  createOk : Bool
deriving DecidableEq

/-- Outcome of the startup phase: `aborted code` models `process::exit`
before the probe runs; `ready removedOld` means a fresh temporary
directory exists and the run proceeds to the duration probe,
`removedOld` recording whether a stale directory was deleted first. -/
inductive StartupResult where
  | aborted (code : Nat)
  | ready (removedOld : Bool)
deriving DecidableEq

/-- The startup phase (`main.rs` lines 99–113): a pre-existing
`tmp_segments` is recursively removed (failure is fatal), then the
directory is created fresh (failure is fatal). -/
def startupTmp (env : StartupEnv) : StartupResult :=
  if env.tmpExists then
    if !env.removeOk then .aborted 1
    else if !env.createOk then .aborted 1
    else .ready true
  else if !env.createOk then .aborted 1
  else .ready false

/-! ## Lemmas on digits and global frame names -/

theorem digitChar_val (n : Nat) (h : n < 10) : (digitChar n).toNat - 48 = n := by
  interval_cases n <;> rfl

theorem digitsVal_snoc (l : List Char) (c : Char) :
    digitsVal (l ++ [c]) = digitsVal l * 10 + (c.toNat - 48) := by
  simp [digitsVal, List.foldl_append]

theorem digitsVal_natDigitsAux (fuel : Nat) :
    ∀ n : Nat, n < 10 ^ fuel → digitsVal (natDigitsAux fuel n) = n := by
  induction fuel with
  | zero =>
    intro n h
    simp only [pow_zero, Nat.lt_one_iff] at h
    subst h
    rfl
  | succ fuel ih =>
    intro n h
    by_cases h10 : n < 10
    · simp only [natDigitsAux, if_pos h10]
      have := digitChar_val n h10
      simp only [digitsVal, List.foldl_cons, List.foldl_nil]
      omega
    · simp only [natDigitsAux, if_neg h10]
      rw [digitsVal_snoc, ih (n / 10) (by rw [pow_succ] at h; omega)]
      have := digitChar_val (n % 10) (Nat.mod_lt _ (by omega))
      omega

theorem digitsVal_natDigits (n : Nat) : digitsVal (natDigits n) = n :=
  digitsVal_natDigitsAux (n + 1) n
    (lt_of_lt_of_le (Nat.lt_pow_self (by norm_num) n)
      (Nat.pow_le_pow_right (by norm_num) (by omega)))

theorem digitsVal_replicate_zero (k : Nat) (l : List Char) :
    digitsVal (List.replicate k '0' ++ l) = digitsVal l := by
  induction k with
  | zero => rfl
  | succ k ih =>
    rw [List.replicate_succ, List.cons_append]
    exact ih

theorem digitsVal_pad5 (n : Nat) : digitsVal (pad5 n).data = n := by
  show digitsVal (List.replicate (5 - (natDigits n).length) '0' ++ natDigits n) = n
  rw [digitsVal_replicate_zero, digitsVal_natDigits]

theorem globalName_injective : Function.Injective globalName := by
  intro m n h
  have hd : ("video".data ++ ((pad5 m).data ++ ".png".data) : List Char)
      = "video".data ++ ((pad5 n).data ++ ".png".data) := by
    have := congrArg String.data h
    simpa [globalName, String.data_append] using this
  have h1 := List.append_cancel_left hd
  have h2 := List.append_cancel_right h1
  have := congrArg digitsVal h2
  rwa [digitsVal_pad5, digitsVal_pad5] at this

/-! ## Lemmas on the merge coordinator -/

theorem mergeSegment_some (c : Nat) (l : List Entry) :
    mergeSegment c (some l)
      = ((sortFrames (l.filter isPngFrame)).enum.map
            (fun p => (p.2, globalName (c + p.1))),
         c + (sortFrames (l.filter isPngFrame)).length) := rfl

theorem enum_name_map (c : Nat) (fr : List Entry) :
    (fr.enum.map (fun p => (p.2, globalName (c + p.1)))).map Prod.snd
      = (List.range' c fr.length).map globalName := by
  rw [List.map_map, List.range'_eq_map_range, List.map_map]
  have h1 : (Prod.snd ∘ fun p : Nat × Entry => (p.2, globalName (c + p.1)))
      = (fun i => globalName (c + i)) ∘ Prod.fst := rfl
  rw [h1, ← List.map_map, List.enum_map_fst]
  rfl

theorem mergeSegment_allPng (c : Nat) (l : List Entry)
    (h : ∀ e ∈ l, isPngFrame e = true) :
    (mergeSegment c (some l)).1.map Prod.snd
        = (List.range' c l.length).map globalName
    ∧ (mergeSegment c (some l)).2 = c + l.length := by
  have hf : l.filter isPngFrame = l := List.filter_eq_self.mpr h
  have hlen : (sortFrames (l.filter isPngFrame)).length = l.length := by
    rw [hf, sortFrames, List.length_mergeSort]
  rw [mergeSegment_some]
  constructor
  · rw [enum_name_map, hlen]
  · rw [hlen]

theorem mergeAll_cons (c : Nat) (x : Option (List Entry))
    (rest : List (Option (List Entry))) :
    mergeAll c (x :: rest)
      = ((mergeSegment c x).1 ++ (mergeAll (mergeSegment c x).2 rest).1,
         (mergeAll (mergeSegment c x).2 rest).2) := rfl

theorem mergeAll_names (c : Nat) (segLists : List (List Entry))
    (h : ∀ l ∈ segLists, ∀ e ∈ l, isPngFrame e = true) :
    (mergeAll c (segLists.map some)).1.map Prod.snd
        = (List.range' c ((segLists.map List.length).sum)).map globalName
    ∧ (mergeAll c (segLists.map some)).2 = c + (segLists.map List.length).sum := by
  induction segLists generalizing c with
  | nil => simp [mergeAll]
  | cons l rest ih =>
    have hl := mergeSegment_allPng c l (h l (by simp))
    have hr := ih (c + l.length)
      (fun l' hl' e he => h l' (by simp [hl']) e he)
    rw [List.map_cons, mergeAll_cons]
    constructor
    · rw [List.map_append, hl.1, hl.2, hr.1, ← List.map_append,
        List.range'_append_1]
      simp only [List.map_cons, List.sum_cons]
      rw [Nat.add_comm]
    · rw [hl.2, hr.2]
      simp only [List.map_cons, List.sum_cons]
      omega

/-- **C1.** No-gap/no-duplicate law: when every worker reported success and
segment `i` holds `k_i` sortable PNG frame files, the merge moves exactly
`Σ k_i` files whose destination names are `globalName 1 .. globalName Σk_i`
in order, with no missing and no repeated name, and the final output
directory (initially empty) contains exactly those `Σ k_i` files. -/
theorem merge_no_gap_no_dup (numThreads : Nat) (reports : List (Nat × Bool))
    (segLists : List (List Entry))
    (_hlen : segLists.length = numThreads)
    (hsucc : successCount reports = numThreads)
    (hpng : ∀ l ∈ segLists, ∀ e ∈ l,
      isPngFrame e = true ∧ (sortKey e.name).isSome = true) :
    (coordinate numThreads reports (segLists.map some) ∅).moves.map Prod.snd
        = (List.range' 1 ((segLists.map List.length).sum)).map globalName
    ∧ ((coordinate numThreads reports (segLists.map some) ∅).moves.map
        Prod.snd).Nodup
    ∧ (coordinate numThreads reports (segLists.map some) ∅).output
        = ((List.range' 1 ((segLists.map List.length).sum)).map
            globalName).toFinset
    ∧ (coordinate numThreads reports (segLists.map some) ∅).output.card
        = (segLists.map List.length).sum := by
  have hall : ∀ l ∈ segLists, ∀ e ∈ l, isPngFrame e = true :=
    fun l hl e he => (hpng l hl e he).1
  have hm := mergeAll_names 1 segLists hall
  have hnodup :
      ((List.range' 1 ((segLists.map List.length).sum)).map globalName).Nodup :=
    (List.nodup_range' 1 _).map globalName_injective
  have hco : coordinate numThreads reports (segLists.map some) ∅
      = ⟨0, true, (mergeAll 1 (segLists.map some)).1,
         ∅ ∪ ((mergeAll 1 (segLists.map some)).1.map Prod.snd).toFinset,
         true⟩ := by
    simp [coordinate, hsucc]
  rw [hco]
  refine ⟨hm.1, ?_, ?_, ?_⟩
  · rw [hm.1]
    exact hnodup
  · rw [hm.1, Finset.empty_union]
  · rw [hm.1, Finset.empty_union, List.toFinset_card_of_nodup hnodup]
    rw [List.length_map, List.length_range']

/-- Witness for C1 at two segments of one sortable PNG frame each. -/
theorem merge_no_gap_no_dup_witness :
    (coordinate 2 [(0, true), (1, true)]
        [some [⟨"00001.png", true⟩], some [⟨"00001.png", true⟩]] ∅).moves.map
        Prod.snd
      = (List.range' 1 2).map globalName :=
  (merge_no_gap_no_dup 2 [(0, true), (1, true)]
    [[⟨"00001.png", true⟩], [⟨"00001.png", true⟩]]
    (by decide) (by decide) (by decide)).1

/-- **C3.** All-or-nothing merge: when all workers have reported and any
report carries `success = false`, the run exits with status 1, the merge
never runs, no file is moved, the output directory is untouched, and the
temporary segment directories are not removed. -/
theorem all_or_nothing (numThreads : Nat) (reports : List (Nat × Bool))
    (listings : List (Option (List Entry))) (out0 : Finset String)
    (hlen : reports.length = numThreads)
    (hfail : ∃ r ∈ reports, r.2 = false) :
    coordinate numThreads reports listings out0 = ⟨1, false, [], out0, false⟩
    ∧ (coordinate numThreads reports listings out0).exitCode ≠ 0 := by
  obtain ⟨r, hr, hrf⟩ := hfail
  have hlt : successCount reports < numThreads := by
    rw [← hlen]
    refine Nat.lt_of_le_of_ne (List.countP_le_length _) ?_
    intro heq
    have := List.countP_eq_length.mp heq r hr
    simp only [hrf] at this
    exact Bool.false_ne_true this
  have hne : successCount reports ≠ numThreads := Nat.ne_of_lt hlt
  have hco : coordinate numThreads reports listings out0
      = ⟨1, false, [], out0, false⟩ := by
    simp only [coordinate]
    rw [if_pos hne]
  exact ⟨hco, by rw [hco]; exact Nat.one_ne_zero⟩

/-- Witness for C3: one of two workers failed. -/
theorem all_or_nothing_witness :
    coordinate 2 [(0, true), (1, false)] [some [⟨"00001.png", true⟩]] ∅
        = ⟨1, false, [], ∅, false⟩
    ∧ (coordinate 2 [(0, true), (1, false)]
        [some [⟨"00001.png", true⟩]] ∅).exitCode ≠ 0 :=
  all_or_nothing 2 [(0, true), (1, false)] [some [⟨"00001.png", true⟩]] ∅
    rfl ⟨(1, false), by decide, rfl⟩

/-- **C4.** Arrival-order independence: permuting the order in which the
worker completion reports arrive leaves the whole coordination outcome
(exit code, merge moves, final output, cleanup) unchanged. -/
theorem arrival_order_independent (numThreads : Nat)
    (reports₁ reports₂ : List (Nat × Bool))
    (listings : List (Option (List Entry))) (out0 : Finset String)
    (hperm : reports₁.Perm reports₂) :
    coordinate numThreads reports₁ listings out0
      = coordinate numThreads reports₂ listings out0 := by
  have hc : successCount reports₁ = successCount reports₂ :=
    hperm.countP_eq _
  simp only [coordinate, successCount] at hc ⊢
  rw [hc]

/-- Witness for C4 at a transposition of two success reports. -/
theorem arrival_order_independent_witness :
    coordinate 2 [(0, true), (1, true)] [some []] ∅
      = coordinate 2 [(1, true), (0, true)] [some []] ∅ :=
  arrival_order_independent 2 [(0, true), (1, true)] [(1, true), (0, true)]
    [some []] ∅ (List.Perm.swap (1, true) (0, true) [])

/-! ## Lemmas for the empty-segment claim -/

theorem mergeSegment_empty (c : Nat) (l : List Entry)
    (h : l.filter isPngFrame = []) : mergeSegment c (some l) = ([], c) := by
  rw [mergeSegment_some, h]
  simp [sortFrames]

theorem mergeAll_append (c : Nat) (xs ys : List (Option (List Entry))) :
    mergeAll c (xs ++ ys)
      = ((mergeAll c xs).1 ++ (mergeAll (mergeAll c xs).2 ys).1,
         (mergeAll (mergeAll c xs).2 ys).2) := by
  induction xs generalizing c with
  | nil => simp [mergeAll]
  | cons x xs ih =>
    rw [List.cons_append, mergeAll_cons, ih, mergeAll_cons]
    simp [List.append_assoc]

/-- **C8.** Empty segment directory tolerance: a segment whose directory
holds no PNG frame files contributes nothing — the run behaves exactly as
if that segment were absent, still exits with status zero, and the global
counter does not advance across it; moreover non-PNG and non-file entries
of any listing are ignored entirely by the merge. -/
theorem empty_segment_tolerated (numThreads : Nat)
    (reports : List (Nat × Bool)) (pre post : List (Option (List Entry)))
    (l : List Entry) (out0 : Finset String)
    (hsucc : successCount reports = numThreads)
    (hempty : l.filter isPngFrame = []) :
    coordinate numThreads reports (pre ++ some l :: post) out0
      = coordinate numThreads reports (pre ++ post) out0
    ∧ (coordinate numThreads reports (pre ++ some l :: post) out0).exitCode
        = 0
    ∧ ∀ (c : Nat) (l' : List Entry),
        mergeSegment c (some l')
          = mergeSegment c (some (l'.filter isPngFrame)) := by
  have hmid : ∀ c, mergeAll c (some l :: post) = mergeAll c post := by
    intro c
    rw [mergeAll_cons, mergeSegment_empty c l hempty]
    simp
  have hma : mergeAll 1 (pre ++ some l :: post) = mergeAll 1 (pre ++ post) := by
    rw [mergeAll_append, mergeAll_append, hmid]
  refine ⟨?_, ?_, ?_⟩
  · simp only [coordinate]
    rw [if_neg (not_not_intro hsucc), if_neg (not_not_intro hsucc), hma]
  · simp only [coordinate]
    rw [if_neg (not_not_intro hsucc)]
  · intro c l'
    rw [mergeSegment_some, mergeSegment_some]
    have hff : (l'.filter isPngFrame).filter isPngFrame
        = l'.filter isPngFrame :=
      List.filter_eq_self.mpr (fun a ha => List.of_mem_filter ha)
    rw [hff]

/-- Witness for C8: a directory holding only a non-PNG file and a non-file
entry named like a PNG. -/
theorem empty_segment_tolerated_witness :
    coordinate 1 [(0, true)]
        ([] ++ some [⟨"notes.txt", true⟩, ⟨"sub.png", false⟩]
          :: [some [⟨"00001.png", true⟩]]) ∅
      = coordinate 1 [(0, true)] ([] ++ [some [⟨"00001.png", true⟩]]) ∅ :=
  (empty_segment_tolerated 1 [(0, true)] [] [some [⟨"00001.png", true⟩]]
    [⟨"notes.txt", true⟩, ⟨"sub.png", false⟩] ∅ rfl (by decide)).1

/-- **C9 (amended).** After a successful run the final output directory
holds exactly its initial contents united with the GlobalFrames this merge
produced; when the output directory starts empty it holds only this
run's GlobalFrames. -/
theorem output_purity (numThreads : Nat) (reports : List (Nat × Bool))
    (listings : List (Option (List Entry))) (out0 : Finset String)
    (hsucc : successCount reports = numThreads) :
    (coordinate numThreads reports listings out0).output
      = out0 ∪ ((coordinate numThreads reports listings out0).moves.map
          Prod.snd).toFinset
    ∧ (coordinate numThreads reports listings ∅).output
      = ((coordinate numThreads reports listings ∅).moves.map
          Prod.snd).toFinset := by
  constructor <;> simp [coordinate, hsucc]

/-- Witness for C9 (amended) at one successful segment. -/
theorem output_purity_witness :
    (coordinate 1 [(0, true)] [some []] ∅).output
      = ((coordinate 1 [(0, true)] [some []] ∅).moves.map Prod.snd).toFinset :=
  (output_purity 1 [(0, true)] [some []] ∅ rfl).2

/-- **C9, counterexample to the claim as stated.** A successful run whose
output directory pre-existed with a stale file ends with that stale file
still present, although it is not a GlobalFrame produced by this
run's merge. -/
theorem output_purity_counterexample :
    (coordinate 1 [(0, true)] [some [⟨"00001.png", true⟩]]
        {"stale.txt"}).exitCode = 0
    ∧ "stale.txt" ∈ (coordinate 1 [(0, true)] [some [⟨"00001.png", true⟩]]
        {"stale.txt"}).output
    ∧ "stale.txt" ∉ ((coordinate 1 [(0, true)]
        [some [⟨"00001.png", true⟩]] {"stale.txt"}).moves.map Prod.snd) := by
  have hfilter : [(⟨"00001.png", true⟩ : Entry)].filter isPngFrame
      = [⟨"00001.png", true⟩] := by decide
  have hsort : sortFrames [(⟨"00001.png", true⟩ : Entry)]
      = [⟨"00001.png", true⟩] := by
    simp [sortFrames]
  refine ⟨?_, ?_, ?_⟩ <;>
    simp [coordinate, successCount, mergeAll, mergeSegment, hfilter, hsort]
  decide

/-- **C2, counterexample to the claim as stated.** At `VideoDuration = 0`
(allowed by the claim, which quantifies over all durations `≥ 0`) with two
workers, both segments start at offset `0`, so the start offsets are not
strictly increasing. -/
theorem segment_planner_counterexample :
    ¬ (((plan 0 2).map Segment.start).Pairwise (· < ·)) := by
  intro h
  have h2 : (plan 0 2).map Segment.start = [0, 0] := by
    simp [plan, List.range_succ]
  rw [h2] at h
  exact lt_irrefl (0 : ℚ)
    (List.rel_of_pairwise_cons h (List.mem_cons_self _ _))

/-- **C2 (amended).** Segment Planner correctness: for every worker count
`N ≥ 1` and duration `d ≥ 0` the planner yields exactly `N` segments,
segment `i` being `⟨i, i * (d / N), d / N⟩`; the start offsets are strictly
increasing whenever `d > 0` (at `d = 0` all offsets are `0`); and the
segments jointly cover exactly the interval `[0, d)`. -/
theorem segment_planner (d : ℚ) (n : Nat) (hn : 1 ≤ n) (hd : 0 ≤ d) :
    (plan d n).length = n
    ∧ (∀ i (h : i < (plan d n).length),
        (plan d n).get ⟨i, h⟩ = ⟨i, (i : ℚ) * (d / (n : ℚ)), d / (n : ℚ)⟩)
    ∧ (0 < d → ((plan d n).map Segment.start).Pairwise (· < ·))
    ∧ (∀ x : ℚ, (0 ≤ x ∧ x < d)
        ↔ ∃ s ∈ plan d n, s.start ≤ x ∧ x < s.start + s.len) := by
  have hnq : (0 : ℚ) < (n : ℚ) := by
    exact_mod_cast Nat.lt_of_lt_of_le Nat.zero_lt_one hn
  have hnz : (n : ℚ) ≠ 0 := ne_of_gt hnq
  refine ⟨by simp [plan], ?_, ?_, ?_⟩
  · intro i h
    simp [plan, List.get_eq_getElem]
  · intro hdpos
    have hq : 0 < d / (n : ℚ) := div_pos hdpos hnq
    have hmap : (plan d n).map Segment.start
        = (List.range n).map (fun i : Nat => (i : ℚ) * (d / (n : ℚ))) := by
      simp only [plan, List.map_map]
      rfl
    rw [hmap]
    refine List.Pairwise.map _ ?_ (List.pairwise_lt_range n)
    intro a b hab
    exact mul_lt_mul_of_pos_right (by exact_mod_cast hab) hq
  · intro x
    constructor
    · rintro ⟨hx0, hxd⟩
      have hdpos : 0 < d := lt_of_le_of_lt hx0 hxd
      have hq : 0 < d / (n : ℚ) := div_pos hdpos hnq
      have hxq : 0 ≤ x / (d / (n : ℚ)) := div_nonneg hx0 (le_of_lt hq)
      refine ⟨⟨⌊x / (d / (n : ℚ))⌋₊,
        ((⌊x / (d / (n : ℚ))⌋₊ : ℚ)) * (d / (n : ℚ)), d / (n : ℚ)⟩, ?_, ?_, ?_⟩
      · have hi : ⌊x / (d / (n : ℚ))⌋₊ < n := by
          rw [Nat.floor_lt hxq, div_lt_iff₀ hq, mul_div_cancel₀ d hnz]
          exact hxd
        simp only [plan, List.mem_map]
        exact ⟨⌊x / (d / (n : ℚ))⌋₊, List.mem_range.mpr hi, rfl⟩
      · calc ((⌊x / (d / (n : ℚ))⌋₊ : ℚ)) * (d / (n : ℚ))
            ≤ (x / (d / (n : ℚ))) * (d / (n : ℚ)) :=
              mul_le_mul_of_nonneg_right (Nat.floor_le hxq) (le_of_lt hq)
          _ = x := div_mul_cancel₀ x (ne_of_gt hq)
      · have h2 : x / (d / (n : ℚ)) < (⌊x / (d / (n : ℚ))⌋₊ : ℚ) + 1 :=
          Nat.lt_floor_add_one _
        have h3 : x < ((⌊x / (d / (n : ℚ))⌋₊ : ℚ) + 1) * (d / (n : ℚ)) := by
          rw [← div_lt_iff₀ hq]
          exact h2
        rw [add_mul, one_mul] at h3
        exact h3
    · rintro ⟨s, hs, hsx, hxs⟩
      simp only [plan, List.mem_map] at hs
      obtain ⟨i, hi, rfl⟩ := hs
      have hq0 : (0 : ℚ) ≤ d / (n : ℚ) := div_nonneg hd (le_of_lt hnq)
      constructor
      · exact le_trans (mul_nonneg (Nat.cast_nonneg i) hq0) hsx
      · have hin : ((i : ℚ) + 1) ≤ (n : ℚ) := by
          exact_mod_cast Nat.succ_le_of_lt (List.mem_range.mp hi)
        have h3 : x < ((i : ℚ) + 1) * (d / (n : ℚ)) := by
          rw [add_mul, one_mul]
          exact hxs
        have h4 : ((i : ℚ) + 1) * (d / (n : ℚ)) ≤ (n : ℚ) * (d / (n : ℚ)) :=
          mul_le_mul_of_nonneg_right hin hq0
        rw [mul_div_cancel₀ d hnz] at h4
        exact lt_of_lt_of_le h3 h4

/-- Witness for C2 (amended) at `d = 10`, `N = 2`. -/
theorem segment_planner_witness : (plan 10 2).length = 2 :=
  (segment_planner 10 2 (by norm_num) (by norm_num)).1

/-- **C5, counterexample to the claim as stated.** The probe tool spawns,
exits zero, and prints `-5`: the text parses as a *negative* number, yet
the probe succeeds and returns `-5` instead of failing. -/
theorem probe_negative_accepted :
    probeDuration (some ⟨true, "-5\n"⟩) = some (RustFloat.finite (-5))
    ∧ ((-5 : ℚ) < 0) :=
  ⟨rfl, by norm_num⟩

/-- **C5 (amended).** Duration Probe contract: the probe returns a
duration value `v` iff the tool could be spawned, exited with success
status, and its trimmed standard output parses as a floating-point number
of value `v`; the sign of the parsed number is not validated. In every
other case the probe fails fatally. -/
theorem probe_contract (spawned : Option ProcOut) (v : RustFloat) :
    probeDuration spawned = some v
      ↔ ∃ p, spawned = some p ∧ p.exitZero = true
          ∧ parseF64 (rustTrim p.stdout) = some v := by
  cases spawned with
  | none => simp [probeDuration]
  | some p =>
    cases hp : p.exitZero <;> simp [probeDuration, hp]

/-- Witness for C5 (amended): probe output `7` yields duration `7`. -/
theorem probe_contract_witness :
    probeDuration (some ⟨true, "7\n"⟩) = some (RustFloat.finite 7) :=
  (probe_contract (some ⟨true, "7\n"⟩) (RustFloat.finite 7)).mpr
    ⟨⟨true, "7\n"⟩, rfl, rfl, rfl⟩

/-- **C6, counterexample to the claim as stated.** A worker whose
diagnostic-stream read fails (the drain loop hits an error and breaks)
but whose process then exits with status zero reports
`success = true`, not `success = false`. -/
theorem worker_read_failure_not_failure :
    drainHitError ([none] : List (Option String)) = true
    ∧ workerReport ⟨true, true, [none], true, true⟩ = true :=
  ⟨rfl, rfl⟩

/-- **C6 (amended).** Worker failure reporting: a worker reports
`success = false` exactly when its segment directory cannot be created,
the external process cannot be spawned, waiting on it fails, or it exits
unsuccessfully; the diagnostic-stream reads (including read failures,
which only end the drain loop early) never influence the report. -/
theorem worker_report_cases (env : WorkerEnv) :
    workerReport env
      = (env.createDirOk && env.spawnOk && env.waitOk && env.exitSuccess)
    ∧ ∀ lr, workerReport { env with lineReads := lr } = workerReport env := by
  obtain ⟨c, s, lr0, w, e⟩ := env
  refine ⟨?_, fun lr => rfl⟩
  cases c <;> cases s <;> cases w <;> cases e <;> rfl

/-! ## Lemmas on the frame comparator -/

theorem frameLe_eq (a b : Entry) :
    frameLe a b = match sortKey a.name, sortKey b.name with
      | none, _ => true
      | some _, none => false
      | some x, some y => decide (x ≤ y) := by
  unfold frameLe frameCmp
  rcases sortKey a.name with _ | x <;> rcases sortKey b.name with _ | y
  · rfl
  · rfl
  · rfl
  · show (!(compare x y == Ordering.gt)) = decide (x ≤ y)
    rcases hc : compare x y with _ | _ | _
    · rw [Nat.compare_eq_lt] at hc
      have hxy : x ≤ y := Nat.le_of_lt hc
      simp [hxy]
      rfl
    · rw [Nat.compare_eq_eq] at hc
      subst hc
      simp
      rfl
    · rw [Nat.compare_eq_gt] at hc
      have hxy : ¬ x ≤ y := by omega
      simp [hxy]
      rfl

theorem frameLe_trans (a b c : Entry) (h1 : frameLe a b) (h2 : frameLe b c) :
    frameLe a c := by
  rw [frameLe_eq] at h1 h2 ⊢
  rcases ha : sortKey a.name with _ | x <;>
    rcases hb : sortKey b.name with _ | y <;>
    rcases hc : sortKey c.name with _ | z <;>
    simp_all
  all_goals omega

theorem frameLe_total (a b : Entry) : frameLe a b || frameLe b a := by
  rw [frameLe_eq, frameLe_eq]
  rcases sortKey a.name with _ | x <;> rcases sortKey b.name with _ | y <;>
    simp
  all_goals omega

/-- **C7.** Sort-key fallback: in the merge coordinator's comparator every
file whose stem does not parse as a `u32` compares strictly less than
every file whose stem does; the frame sort is a fixed function of the
directory listing (hence deterministic), ordered by the comparator, and a
permutation of its input. -/
theorem sort_key_fallback :
    (∀ a b : Entry, sortKey a.name = none → (sortKey b.name).isSome = true →
      frameCmp a b = .lt)
    ∧ ∀ l : List Entry,
        (sortFrames l).Pairwise (fun a b => frameLe a b = true)
        ∧ (sortFrames l).Perm l := by
  constructor
  · intro a b ha hb
    obtain ⟨y, hy⟩ := Option.isSome_iff_exists.mp hb
    simp [frameCmp, ha, hy, keyCmp]
  · intro l
    exact ⟨List.sorted_mergeSort frameLe_trans frameLe_total l,
      List.mergeSort_perm l _⟩

/-- Witness for C7: a non-numeric stem sorts before a numeric one. -/
theorem sort_key_fallback_witness :
    frameCmp ⟨"frame.png", true⟩ ⟨"00012.png", true⟩ = .lt :=
  sort_key_fallback.1 ⟨"frame.png", true⟩ ⟨"00012.png", true⟩
    (by decide) (by decide)

/-- **C10.** Startup destruction of stale working state: a pre-existing
temporary segments directory is recursively removed and recreated fresh
before the probe phase is reached; failure of the removal or of the
creation aborts the run with exit status 1 before any segment work. -/
theorem startup_cleanup (env : StartupEnv) :
    (env.tmpExists = true → env.removeOk = true → env.createOk = true →
      startupTmp env = .ready true)
    ∧ (env.tmpExists = false → env.createOk = true →
      startupTmp env = .ready false)
    ∧ (env.tmpExists = true → env.removeOk = false →
      startupTmp env = .aborted 1)
    ∧ (env.createOk = false → startupTmp env = .aborted 1) := by
  obtain ⟨t, r, c⟩ := env
  cases t <;> cases r <;> cases c <;> decide

/-- Witness for C10: removal of the stale directory fails. -/
theorem startup_cleanup_witness :
    startupTmp ⟨true, false, true⟩ = .aborted 1 :=
  (startup_cleanup ⟨true, false, true⟩).2.2.1 rfl rfl

end DeliveryEncoder
